import Mathlib

/-!
Verification development for the QDataflowCanvas model-view synchronization
and gesture code (qdataflowcanvas.cpp / qdataflowcanvas.h).

Conventions of the shallow embedding:
* model entities (QDataflowModelNode*, QDataflowModelConnection*) and visual
  items are identified by natural numbers standing for their pointer identity;
* the QMap containers nodes_ / connections_ are represented by their key
  lists (a visual is identified with its model key);
* the QGraphicsScene is represented by the lists of item identities it
  currently contains;
* handlers that can dereference a null visual pointer return an Outcome whose
  nullDeref constructor marks the dereference instead of crashing;
* while loops whose termination is in question (cycleCompletion) take an
  explicit fuel argument and return none when the fuel is exhausted, so a
  result of none for every fuel means the loop does not terminate.
-/

namespace QDataflow

/-- Commands the canvas issues to the dataflow model
(QDataflowModel create / remove / disconnect / connect and
QDataflowModelNode setText). -/
inductive Command where
  | createNode (x y : Int) (text : String) (inletCount outletCount : Nat)
  | removeNode (node : Nat)
  | setNodeText (node : Nat) (text : String)
  | connect (srcNode srcIndex dstNode dstIndex : Nat)
  | disconnect (srcNode srcIndex dstNode dstIndex : Nat)
deriving DecidableEq, Repr

/-- Result of running a handler that may dereference a null visual pointer. -/
inductive Outcome (α : Type) where
  | ok (value : α)
  | nullDeref
deriving DecidableEq, Repr

/-! Canvas state for the model-to-visual index (claims C1 and C3). -/

/-- The canvas state relevant to the model-to-visual index: nodes_ and
connections_ are the key sets of the QMaps from model entity to visual,
sceneNodes and sceneConns are the visuals currently in the graphics scene,
and editNodes are the node visuals currently in edit mode. -/
structure QDataflowCanvas where
  nodes_ : List Nat
  connections_ : List Nat
  sceneNodes : List Nat
  sceneConns : List Nat
  editNodes : List Nat
deriving DecidableEq, Repr

/-- The canvas right after construction: empty index, empty scene. -/
def initCanvas : QDataflowCanvas :=
  { nodes_ := [], connections_ := [], sceneNodes := [], sceneConns := [], editNodes := [] }

/-- QDataflowCanvas::node: look up the visual for a model node; the source
logs a qWarning and returns a null pointer when the node is unknown. -/
def QDataflowCanvas.node (s : QDataflowCanvas) (n : Nat) : Option Nat :=
  if n ∈ s.nodes_ then some n else none

/-- QDataflowCanvas::connection: look up the visual for a model connection;
the source logs a WARNING and returns a null pointer when it is unknown. -/
def QDataflowCanvas.connection (s : QDataflowCanvas) (c : Nat) : Option Nat :=
  if c ∈ s.connections_ then some c else none

/-- Model change signals consumed by the canvas.  nodeAdded carries the node's
label text (onNodeAdded enters edit mode when it is empty); connectionAdded
carries the identities of the two endpoint nodes, which the
QDataflowConnection constructor resolves through the canvas index. -/
inductive Event where
  | nodeAdded (n : Nat) (text : String)
  | nodeRemoved (n : Nat)
  | nodeValidChanged (n : Nat) (valid : Bool)
  | nodePosChanged (n : Nat) (x y : Int)
  | nodeTextChanged (n : Nat) (text : String)
  | connectionAdded (c srcNode dstNode : Nat)
  | connectionRemoved (c : Nat)
deriving DecidableEq, Repr

/-- QDataflowCanvas::onNodeAdded: create the visual, register it in nodes_,
add it to the scene; if the model node's text is empty, enter edit mode. -/
def onNodeAdded (s : QDataflowCanvas) (n : Nat) (text : String) : QDataflowCanvas :=
  { s with
    nodes_ := if n ∈ s.nodes_ then s.nodes_ else n :: s.nodes_,
    sceneNodes := n :: s.sceneNodes,
    editNodes := if text = "" then n :: s.editNodes else s.editNodes }

/-- QDataflowCanvas::onNodeRemoved: look the visual up, force-exit edit mode
if needed and remove the visual from the scene.  The map entry in nodes_ is
not erased.  When the lookup returns null, `uinode->isInEditMode()`
dereferences the null pointer. -/
def onNodeRemoved (s : QDataflowCanvas) (n : Nat) : Outcome QDataflowCanvas :=
  match s.node n with
  | none => Outcome.nullDeref
  | some u =>
    Outcome.ok
      { s with
        editNodes := if u ∈ s.editNodes then s.editNodes.filter (fun x => x != u)
                     else s.editNodes,
        sceneNodes := s.sceneNodes.erase u }

/-- QDataflowCanvas::onNodeValidChanged: `uinode->setValid(valid)` with no
null check; setValid only changes the visual's presentation. -/
def onNodeValidChanged (s : QDataflowCanvas) (n : Nat) (_valid : Bool) :
    Outcome QDataflowCanvas :=
  match s.node n with
  | none => Outcome.nullDeref
  | some _ => Outcome.ok s

/-- QDataflowCanvas::onNodePosChanged: the only handler that checks the
looked-up pointer (`if(uinode)`); setPos only moves the visual. -/
def onNodePosChanged (s : QDataflowCanvas) (n : Nat) (_x _y : Int) :
    Outcome QDataflowCanvas :=
  match s.node n with
  | none => Outcome.ok s
  | some _ => Outcome.ok s

/-- QDataflowCanvas::onNodeTextChanged: `uinode->setText(text)` with no null
check; setText only updates the label document. -/
def onNodeTextChanged (s : QDataflowCanvas) (n : Nat) (_text : String) :
    Outcome QDataflowCanvas :=
  match s.node n with
  | none => Outcome.nullDeref
  | some _ => Outcome.ok s

/-- QDataflowCanvas::onConnectionAdded: the QDataflowConnection constructor
resolves both endpoint port visuals through `canvas->node(...)` (a null
result is dereferenced); the connection is then registered and added to the
scene and raised. -/
def onConnectionAdded (s : QDataflowCanvas) (c srcNode dstNode : Nat) :
    Outcome QDataflowCanvas :=
  match s.node srcNode, s.node dstNode with
  | some _, some _ =>
    Outcome.ok
      { s with
        connections_ := if c ∈ s.connections_ then s.connections_ else c :: s.connections_,
        sceneConns := c :: s.sceneConns }
  | _, _ => Outcome.nullDeref

/-- QDataflowCanvas::onConnectionRemoved: remove the visual from the scene;
the map entry in connections_ is not erased.  A null lookup result is passed
to QGraphicsScene::removeItem, which dereferences it. -/
def onConnectionRemoved (s : QDataflowCanvas) (c : Nat) : Outcome QDataflowCanvas :=
  match s.connection c with
  | none => Outcome.nullDeref
  | some u => Outcome.ok { s with sceneConns := s.sceneConns.erase u }

/-- Dispatch one model signal to its handler. -/
def step (s : QDataflowCanvas) : Event → Outcome QDataflowCanvas
  | Event.nodeAdded n text => Outcome.ok (onNodeAdded s n text)
  | Event.nodeRemoved n => onNodeRemoved s n
  | Event.nodeValidChanged n valid => onNodeValidChanged s n valid
  | Event.nodePosChanged n x y => onNodePosChanged s n x y
  | Event.nodeTextChanged n text => onNodeTextChanged s n text
  | Event.connectionAdded c srcNode dstNode => onConnectionAdded s c srcNode dstNode
  | Event.connectionRemoved c => onConnectionRemoved s c

/-- Process a sequence of model signals in order, stopping at a null
dereference. -/
def processEvents (s : QDataflowCanvas) : List Event → Outcome QDataflowCanvas
  | [] => Outcome.ok s
  | e :: rest =>
    match step s e with
    | Outcome.ok s1 => processEvents s1 rest
    | Outcome.nullDeref => Outcome.nullDeref

/-- Run a signal sequence from the initial canvas and look up a node. -/
def lookupNodeAfter (evts : List Event) (n : Nat) : Option Nat :=
  match processEvents initCanvas evts with
  | Outcome.ok s => s.node n
  | Outcome.nullDeref => none

/-- Abstract bookkeeping of the external model: which node and connection
identities are currently alive and which were ever allocated. -/
structure ModelState where
  liveNodes : List Nat
  usedNodes : List Nat
  liveConns : List Nat
  usedConns : List Nat
deriving DecidableEq, Repr

/-- The empty model. -/
def initModel : ModelState :=
  { liveNodes := [], usedNodes := [], liveConns := [], usedConns := [] }

/-- How one model signal changes the model bookkeeping. -/
def ModelState.step (m : ModelState) : Event → ModelState
  | Event.nodeAdded n _ =>
    { m with liveNodes := n :: m.liveNodes, usedNodes := n :: m.usedNodes }
  | Event.nodeRemoved n => { m with liveNodes := m.liveNodes.erase n }
  | Event.connectionAdded c _ _ =>
    { m with liveConns := c :: m.liveConns, usedConns := c :: m.usedConns }
  | Event.connectionRemoved c => { m with liveConns := m.liveConns.erase c }
  | _ => m

/-- A signal is well formed when it refers to a live entity (for changes and
removals) or to a fresh identity (for additions), and a connection is added
between live nodes. -/
def okEvent (m : ModelState) : Event → Bool
  | Event.nodeAdded n _ => decide (n ∉ m.usedNodes)
  | Event.nodeRemoved n => decide (n ∈ m.liveNodes)
  | Event.nodeValidChanged n _ => decide (n ∈ m.liveNodes)
  | Event.nodePosChanged n _ _ => decide (n ∈ m.liveNodes)
  | Event.nodeTextChanged n _ => decide (n ∈ m.liveNodes)
  | Event.connectionAdded c srcNode dstNode =>
    decide (c ∉ m.usedConns) && decide (srcNode ∈ m.liveNodes) &&
      decide (dstNode ∈ m.liveNodes)
  | Event.connectionRemoved c => decide (c ∈ m.liveConns)

/-- A signal sequence is well formed when every signal is well formed in the
model state reached by the preceding ones. -/
def wf (m : ModelState) : List Event → Bool
  | [] => true
  | e :: rest => okEvent m e && wf (m.step e) rest

/-- Apply a whole signal sequence to the model bookkeeping. -/
def applyModel (m : ModelState) : List Event → ModelState
  | [] => m
  | e :: rest => applyModel (m.step e) rest

/-- Joint invariant between the model bookkeeping and the canvas: the scene
mirrors the live entities one-to-one, while the index keys mirror every
entity ever added (removed entities are never unregistered). -/
structure SyncInv (m : ModelState) (s : QDataflowCanvas) : Prop where
  liveNodesNodup : m.liveNodes.Nodup
  liveConnsNodup : m.liveConns.Nodup
  liveNodesUsed : ∀ n, n ∈ m.liveNodes → n ∈ m.usedNodes
  liveConnsUsed : ∀ c, c ∈ m.liveConns → c ∈ m.usedConns
  sceneNodesNodup : s.sceneNodes.Nodup
  sceneNodesLive : ∀ n, n ∈ s.sceneNodes ↔ n ∈ m.liveNodes
  sceneConnsNodup : s.sceneConns.Nodup
  sceneConnsLive : ∀ c, c ∈ s.sceneConns ↔ c ∈ m.liveConns
  indexNodesUsed : ∀ n, n ∈ s.nodes_ ↔ n ∈ m.usedNodes
  indexConnsUsed : ∀ c, c ∈ s.connections_ ↔ c ∈ m.usedConns

/-! Selection and the delete gesture (claim C5). -/

/-- A node visual as seen by the delete gesture: whether it is still in the
scene, selected, and in edit mode. -/
structure VisualNode where
  nodeId : Nat
  inScene : Bool
  isSelected : Bool
  editMode : Bool
deriving DecidableEq, Repr

/-- A connection visual as seen by the delete gesture, with its resolved
endpoint coordinates (source node, outlet index, dest node, inlet index). -/
structure VisualConn where
  connId : Nat
  inScene : Bool
  isSelected : Bool
  srcNode : Nat
  srcIndex : Nat
  dstNode : Nat
  dstIndex : Nat
deriving DecidableEq, Repr

/-- The canvas contents the delete gesture reads: the values of the nodes_
and connections_ maps, in map iteration order. -/
structure CanvasSel where
  nodes : List VisualNode
  connections : List VisualConn
deriving DecidableEq, Repr

/-- QDataflowCanvas::selectedNodes: nodes still in this scene and selected. -/
def selectedNodes (c : CanvasSel) : List VisualNode :=
  c.nodes.filter (fun n => n.inScene && n.isSelected)

/-- QDataflowCanvas::selectedConnections: connections still in this scene and
selected. -/
def selectedConnections (c : CanvasSel) : List VisualConn :=
  c.connections.filter (fun k => k.inScene && k.isSelected)

/-- QDataflowCanvas::isSomeNodeInEditMode. -/
def isSomeNodeInEditMode (c : CanvasSel) : Bool :=
  c.nodes.any (fun n => n.inScene && n.editMode)

/-- The key classification the delete gesture handler makes: the source
tests for Qt::Key_Backspace. -/
inductive CanvasKey where
  | backspace
  | otherKey
deriving DecidableEq, Repr

/-- QDataflowCanvas::keyPressEvent: on backspace with no node mid-edit, issue
a disconnect per selected connection, then a remove per selected node.  Both
selections are snapshots; scene-removal of connections during the disconnect
loop does not change node selection, so reading selectedNodes afterwards
equals the snapshot taken here. -/
def keyPressEvent (c : CanvasSel) (key : CanvasKey) : List Command :=
  if key == CanvasKey.backspace && !(isSomeNodeInEditMode c) then
    (selectedConnections c).map
        (fun k => Command.disconnect k.srcNode k.srcIndex k.dstNode k.dstIndex)
      ++ (selectedNodes c).map (fun n => Command.removeNode n.nodeId)
  else []

/-! Scene items, hit-testing, the connection drag gesture (claim C4) and the
double-click gesture (claim C10). -/

/-- The closed set of visual item kinds relevant to hit-testing. -/
inductive SceneItem where
  | nodeItem (nodeId : Nat)
  | inletItem (nodeId index : Nat)
  | outletItem (nodeId index : Nat)
  | connItem (connId : Nat)
deriving DecidableEq, Repr

/-- QDataflowCanvas::itemAtT specialised to inlets: the items under the point
are given in descending stacking order, and the first one that casts to an
inlet is returned. -/
def itemAtInlet : List SceneItem → Option (Nat × Nat)
  | [] => none
  | SceneItem.inletItem n i :: _ => some (n, i)
  | _ :: rest => itemAtInlet rest

/-- State of the connection-drag gesture owned by a QDataflowOutlet: the
outlet's coordinates and whether the transient rubber-band line (tmpConn_)
currently exists. -/
structure OutletState where
  nodeId : Nat
  index : Nat
  tmpConn : Bool
deriving DecidableEq, Repr

/-- The model's compatibility predicates, consulted only for drag feedback. -/
structure ConnectionRules where
  canMakeConnectionTo : Nat × Nat → Nat × Nat → Bool
  canAcceptConnectionFrom : Nat × Nat → Nat × Nat → Bool

/-- The three pen styles of the transient line during a drag. -/
inductive PenStyle where
  | temp
  | valid
  | invalid
deriving DecidableEq, Repr

/-- QDataflowOutlet::mousePressEvent: create the transient line. -/
def mousePressEvent (s : OutletState) : OutletState :=
  { s with tmpConn := true }

/-- QDataflowOutlet::mouseMoveEvent: choose the pen of the transient line
from the inlet under the pointer and the compatibility predicates; no model
mutation.  Returns none when no drag is active. -/
def mouseMoveEvent (rules : ConnectionRules) (s : OutletState)
    (itemsUnder : List SceneItem) : Option PenStyle :=
  if s.tmpConn then
    match itemAtInlet itemsUnder with
    | some (n, i) =>
      if rules.canMakeConnectionTo (s.nodeId, s.index) (n, i) &&
          rules.canAcceptConnectionFrom (n, i) (s.nodeId, s.index) then
        some PenStyle.valid
      else some PenStyle.invalid
    | none => some PenStyle.temp
  else none

/-- QDataflowOutlet::mouseReleaseEvent: destroy the transient line, then, if
an inlet is under the pointer, issue one connect command; the compatibility
predicates are not consulted here. -/
def mouseReleaseEvent (_rules : ConnectionRules) (s : OutletState)
    (itemsUnder : List SceneItem) : OutletState × List Command :=
  let s1 := { s with tmpConn := false }
  match itemAtInlet itemsUnder with
  | some (n, i) => (s1, [Command.connect s.nodeId s.index n i])
  | none => (s1, [])

/-- QDataflowCanvas::mouseDoubleClickEvent: with no item under the click,
issue one create command at the scene position with empty text and no ports,
accepting the event; otherwise ignore and forward.  The Bool reports whether
the event was accepted. -/
def mouseDoubleClickEvent (itemUnder : Option SceneItem) (x y : Int) :
    List Command × Bool :=
  match itemUnder with
  | none => ([Command.createNode x y "" 0 0], true)
  | some _ => ([], false)

/-! Display-mode toggles (claim C9). -/

/-- The three display-mode flags of the canvas. -/
structure Toggles where
  showIOletsTooltips_ : Bool
  showObjectHoverFeedback_ : Bool
  showConnectionHoverFeedback_ : Bool
deriving DecidableEq, Repr

/-- The flags right after canvas construction. -/
def initToggles : Toggles :=
  { showIOletsTooltips_ := false, showObjectHoverFeedback_ := false,
    showConnectionHoverFeedback_ := false }

/-- QDataflowCanvas::setShowIOletTooltips: set the flag; when enabling, turn
either enabled hover-feedback flag off (each nested setter call receives
false, so its own if-enabled body is skipped and it only clears its flag). -/
def setShowIOletTooltips (s : Toggles) (b : Bool) : Toggles :=
  let s1 := { s with showIOletsTooltips_ := b }
  if b then
    let s2 := if s1.showObjectHoverFeedback_ then
        { s1 with showObjectHoverFeedback_ := false }
      else s1
    if s2.showConnectionHoverFeedback_ then
      { s2 with showConnectionHoverFeedback_ := false }
    else s2
  else s1

/-- QDataflowCanvas::setShowObjectHoverFeedback: set the flag; when enabling,
turn the tooltip flag off if it was on (the nested call receives false and
only clears the flag).  The connection hover flag is not touched. -/
def setShowObjectHoverFeedback (s : Toggles) (b : Bool) : Toggles :=
  let s1 := { s with showObjectHoverFeedback_ := b }
  if b then
    if s1.showIOletsTooltips_ then { s1 with showIOletsTooltips_ := false } else s1
  else s1

/-- QDataflowCanvas::setShowConnectionHoverFeedback: set the flag; when
enabling, turn the tooltip flag off if it was on.  The object hover flag is
not touched. -/
def setShowConnectionHoverFeedback (s : Toggles) (b : Bool) : Toggles :=
  let s1 := { s with showConnectionHoverFeedback_ := b }
  if b then
    if s1.showIOletsTooltips_ then { s1 with showIOletsTooltips_ := false } else s1
  else s1

/-- One call to one of the three setters. -/
inductive ToggleCall where
  | ioletTooltips (b : Bool)
  | objectHover (b : Bool)
  | connectionHover (b : Bool)
deriving DecidableEq, Repr

/-- Apply one setter call. -/
def applyToggleCall (s : Toggles) : ToggleCall → Toggles
  | ToggleCall.ioletTooltips b => setShowIOletTooltips s b
  | ToggleCall.objectHover b => setShowObjectHoverFeedback s b
  | ToggleCall.connectionHover b => setShowConnectionHoverFeedback s b

/-- Apply a sequence of setter calls. -/
def applyToggleCalls (s : Toggles) : List ToggleCall → Toggles
  | [] => s
  | c :: rest => applyToggleCalls (applyToggleCall s c) rest

/-- The tooltip flag is never on together with either hover-feedback flag. -/
def tooltipsExclusive (s : Toggles) : Bool :=
  !(s.showIOletsTooltips_ && s.showObjectHoverFeedback_) &&
    !(s.showIOletsTooltips_ && s.showConnectionHoverFeedback_)

/-! The text label, its edit mode and the completion overlay
(claims C6, C7, C8). -/

/-- State of QDataflowNodeTextLabel together with the owning node's fields
that the editing logic uses: the document text, the node's oldText_ captured
at edit entry, the completion list, highlight index and active flag, and
whether the label currently has edit focus. -/
structure LabelState where
  text : String
  oldText : String
  completionItems : List String
  completionIndex : Int
  completionActive : Bool
  editing : Bool
deriving DecidableEq, Repr

/-- QDataflowNodeTextLabel::clearCompletion: drop every candidate item,
reset the highlight index to -1 and deactivate the overlay. -/
def clearCompletion (s : LabelState) : LabelState :=
  { s with completionItems := [], completionIndex := -1, completionActive := false }

/-- QDataflowNodeTextLabel::setCompletion: clear, then, if the list is
non-empty, activate the overlay showing it (the highlight index stays -1). -/
def setCompletion (s : LabelState) (list : List String) : LabelState :=
  let s1 := clearCompletion s
  if list.isEmpty then s1
  else { s1 with completionActive := true, completionItems := list }

/-- QDataflowNodeTextLabel::complete: query the canvas's completion provider
with the current text and show the result. -/
def complete (provider : String → List String) (s : LabelState) : LabelState :=
  setCompletion s (provider s.text)

/-- QTextDocument setPlainText on the label: replace the text; the
contentsChanged signal then runs QDataflowCanvas::itemTextEditorTextChange,
which adjusts the node and re-queries the completion provider. -/
def docSetPlainText (provider : String → List String) (s : LabelState)
    (t : String) : LabelState :=
  complete provider { s with text := t }

/-- QDataflowNode::enterEditMode: capture oldText_, select the node, focus
the label with the whole text selected, and query completion. -/
def enterEditMode (provider : String → List String) (s : LabelState) : LabelState :=
  complete provider { s with oldText := s.text, editing := true }

/-- QDataflowNode::exitEditMode: clear the completion; when reverting, put
oldText_ back into the document (which re-triggers the completion query);
otherwise, if the text changed since edit entry, issue one setText command to
the model node; finally drop focus and interaction flags. -/
def exitEditMode (provider : String → List String) (nodeId : Nat)
    (s : LabelState) (revertText : Bool) : LabelState × List Command :=
  let s1 := clearCompletion s
  if revertText then
    ({ docSetPlainText provider s1 s1.oldText with editing := false }, [])
  else if s1.oldText ≠ s1.text then
    ({ s1 with oldText := s1.text, editing := false },
      [Command.setNodeText nodeId s1.text])
  else ({ s1 with editing := false }, [])

/-- QDataflowNodeTextLabel::acceptCompletion: with an active overlay and a
highlighted candidate, replace the document text with that candidate (which
re-queries completion); with none highlighted, commit via exitEditMode. -/
def acceptCompletion (provider : String → List String) (nodeId : Nat)
    (s : LabelState) : LabelState × List Command :=
  if s.completionActive then
    if 0 ≤ s.completionIndex then
      (docSetPlainText provider s (s.completionItems.getD s.completionIndex.toNat ""), [])
    else exitEditMode provider nodeId s false
  else (clearCompletion s, [])

/-- The `while(completionIndex_ < 0) completionIndex_ += n` loop of
cycleCompletion, with fuel; none means the fuel ran out with the condition
still true. -/
def whileNeg (n : Int) : Nat → Int → Option Int
  | 0, idx => if idx < 0 then none else some idx
  | fuel + 1, idx => if idx < 0 then whileNeg n fuel (idx + n) else some idx

/-- The `while(completionIndex_ >= n) completionIndex_ -= n` loop of
cycleCompletion, with fuel. -/
def whileGe (n : Int) : Nat → Int → Option Int
  | 0, idx => if n ≤ idx then none else some idx
  | fuel + 1, idx => if n ≤ idx then whileGe n fuel (idx - n) else some idx

/-- QDataflowNodeTextLabel::cycleCompletion: move the highlight by d, with
the special case that moving up from "none highlighted" starts at n - 1, then
normalize into range by the two while loops.  updateCompletion only repaints
the highlight. -/
def cycleCompletion (fuel : Nat) (s : LabelState) (d : Int) : Option LabelState :=
  let n : Int := s.completionItems.length
  let i0 : Int := if s.completionIndex = -1 ∧ d = -1 then n - 1 else s.completionIndex + d
  match whileNeg n fuel i0 with
  | none => none
  | some i1 =>
    match whileGe n fuel i1 with
    | none => none
    | some i2 => some { s with completionIndex := i2 }

/-- The key classification QDataflowNodeTextLabel::sceneEvent makes. -/
inductive Key where
  | escape
  | enter
  | down
  | up
  | tab
  | other
deriving DecidableEq, Repr

/-- QDataflowNodeTextLabel::sceneEvent for key presses.  Escape clears the
overlay when one is active, else reverts and exits edit mode; Return accepts
the completion when one is active, else commits and exits; Down and Up cycle
the highlight when the overlay is active and are consumed no-ops otherwise;
Tab is a consumed no-op; other keys go to the base class (text input). -/
def keyPress (provider : String → List String) (nodeId : Nat) (fuel : Nat)
    (s : LabelState) (k : Key) : Option (LabelState × List Command) :=
  match k with
  | Key.tab => some (s, [])
  | Key.escape =>
    if s.completionActive then some (clearCompletion s, [])
    else some (exitEditMode provider nodeId s true)
  | Key.enter =>
    if s.completionActive then some (acceptCompletion provider nodeId s)
    else some (exitEditMode provider nodeId s false)
  | Key.down =>
    if s.completionActive then Option.map (fun s1 => (s1, ([] : List Command))) (cycleCompletion fuel s 1)
    else some (s, [])
  | Key.up =>
    if s.completionActive then Option.map (fun s1 => (s1, ([] : List Command))) (cycleCompletion fuel s (-1))
    else some (s, [])
  | Key.other => some (s, [])

/-- A label not in edit mode showing text t0, as right after construction. -/
def initLabel (t0 : String) : LabelState :=
  { text := t0, oldText := "", completionItems := [], completionIndex := -1,
    completionActive := false, editing := false }

/-- A label in edit mode with an empty candidate list, the state in which the
overlay is inactive (completionIndex_ is -1 as clearCompletion leaves it). -/
def emptyCompletionLabel : LabelState :=
  { text := "x", oldText := "x", completionItems := [], completionIndex := -1,
    completionActive := false, editing := true }

/-! Port-list resizing on a node visual (claim C2). -/

/-- A port visual: its identity and its connections_ list of attached
connection visuals (QDataflowIOlet::addConnection appends;
removeConnection is never called anywhere in the source). -/
structure PortVisual where
  pid : Nat
  connections_ : List Nat
deriving DecidableEq, Repr

/-- The state QDataflowNode::setInletCount operates on: the ordered inlet
visual list, an allocator for fresh port identities, the scene contents
restricted to these ports and their connections, the set of deleted
(destroyed) port visuals, and the source/dest port references held by every
ConnectionVisual object in existence. -/
structure QDataflowNodeState where
  inlets_ : List PortVisual
  nextPortId : Nat
  scenePorts : List Nat
  sceneConns : List Nat
  deletedPorts : List Nat
  connectionRefs : List (Nat × Nat × Nat)
deriving DecidableEq, Repr

/-- One iteration of the shrink loop of setInletCount: remove every
connection attached to the last inlet from the scene, remove the inlet from
the scene, pop it, and delete it.  The ConnectionVisual objects are neither
deleted nor detached, and connectionRefs is untouched. -/
def dropLastInlet (s : QDataflowNodeState) : QDataflowNodeState :=
  match s.inlets_.getLast? with
  | none => s
  | some lastInlet =>
    { s with
      inlets_ := s.inlets_.dropLast,
      sceneConns := s.sceneConns.filter (fun c => !(lastInlet.connections_.contains c)),
      scenePorts := s.scenePorts.filter (fun p => !(p == lastInlet.pid)),
      deletedPorts := lastInlet.pid :: s.deletedPorts }

/-- Run k iterations of the shrink loop. -/
def iterateDrop : Nat → QDataflowNodeState → QDataflowNodeState
  | 0, s => s
  | k + 1, s => iterateDrop k (dropLastInlet s)

/-- One iteration of the grow loop of setInletCount: append a fresh inlet
visual at the next sequential index (its position is geometric and elided). -/
def appendInlet (s : QDataflowNodeState) : QDataflowNodeState :=
  { s with
    inlets_ := s.inlets_ ++ [{ pid := s.nextPortId, connections_ := [] }],
    scenePorts := s.nextPortId :: s.scenePorts,
    nextPortId := s.nextPortId + 1 }

/-- Run k iterations of the grow loop. -/
def iterateAppend : Nat → QDataflowNodeState → QDataflowNodeState
  | 0, s => s
  | k + 1, s => iterateAppend k (appendInlet s)

/-- QDataflowNode::setInletCount: shrink while too long, then grow while too
short (setOutletCount is the mirror image for outlets_). -/
def setInletCount (s : QDataflowNodeState) (count : Nat) : QDataflowNodeState :=
  let s1 := iterateDrop (s.inlets_.length - count) s
  iterateAppend (count - s1.inlets_.length) s1

/-- A node visual with one inlet (port 0) carrying one attached
ConnectionVisual 10, whose reference record says it runs from port 5 (an
outlet on another node) to port 0. -/
def c2FailingNode : QDataflowNodeState :=
  { inlets_ := [{ pid := 0, connections_ := [10] }],
    nextPortId := 1, scenePorts := [0], sceneConns := [10],
    deletedPorts := [], connectionRefs := [(10, 5, 0)] }

/-! Theorems. -/

/-- Helper: when no inlet occurs among the items under the pointer, the
inlet hit-test comes back empty. -/
theorem itemAtInlet_eq_none (items : List SceneItem)
    (h : ∀ n i, SceneItem.inletItem n i ∉ items) : itemAtInlet items = none := by
  induction items with
  | nil => rfl
  | cons it rest ih =>
    have hrest : ∀ n i, SceneItem.inletItem n i ∉ rest := by
      intro n i hm
      exact h n i (List.mem_cons_of_mem _ hm)
    cases it with
    | nodeItem nid => simpa [itemAtInlet] using ih hrest
    | inletItem n i => exact absurd (List.mem_cons_self _ _) (h n i)
    | outletItem nid idx => simpa [itemAtInlet] using ih hrest
    | connItem cid => simpa [itemAtInlet] using ih hrest

/-- Claim C4: on release while a connection drag is active, the transient
line is destroyed unconditionally; if an inlet is the topmost item under the
pointer, exactly one connect command with (source node, outlet index, dest
node, inlet index) is issued, for every choice of compatibility predicates;
if no inlet is under the pointer, no command is issued. -/
theorem c4_release (rules : ConnectionRules) (s : OutletState)
    (items : List SceneItem) (hdrag : s.tmpConn = true) :
    (mouseReleaseEvent rules s items).1.tmpConn = false ∧
    (∀ n i rest, items = SceneItem.inletItem n i :: rest →
      (mouseReleaseEvent rules s items).2 = [Command.connect s.nodeId s.index n i]) ∧
    ((∀ n i, SceneItem.inletItem n i ∉ items) →
      (mouseReleaseEvent rules s items).2 = []) := by
  refine ⟨?_, ?_, ?_⟩
  · cases h : itemAtInlet items with
    | none => simp [mouseReleaseEvent, h]
    | some v => cases v with
      | mk n i => simp [mouseReleaseEvent, h]
  · intro n i rest hitems
    subst hitems
    simp [mouseReleaseEvent, itemAtInlet]
  · intro h
    simp [mouseReleaseEvent, itemAtInlet_eq_none items h]

/-- Witness for C4 at a drag from outlet 1 of node 2 released over inlet 3 of
node 7, with compatibility predicates that always refuse. -/
theorem c4_release_witness :
    (mouseReleaseEvent ⟨fun _ _ => false, fun _ _ => false⟩ ⟨2, 1, true⟩
        [SceneItem.inletItem 7 3]).1.tmpConn = false ∧
    (mouseReleaseEvent ⟨fun _ _ => false, fun _ _ => false⟩ ⟨2, 1, true⟩
        [SceneItem.inletItem 7 3]).2 = [Command.connect 2 1 7 3] := by
  have h := c4_release ⟨fun _ _ => false, fun _ _ => false⟩ ⟨2, 1, true⟩
    [SceneItem.inletItem 7 3] rfl
  exact ⟨h.1, h.2.1 7 3 [] rfl⟩

/-- Claim C5: on a backspace key press, nothing is issued while some node is
in edit mode; otherwise the issued command list is exactly one disconnect per
selected connection followed by one remove per selected node. -/
theorem c5_delete_gesture (c : CanvasSel) :
    (isSomeNodeInEditMode c = true → keyPressEvent c CanvasKey.backspace = []) ∧
    (isSomeNodeInEditMode c = false →
      keyPressEvent c CanvasKey.backspace =
        (selectedConnections c).map
            (fun k => Command.disconnect k.srcNode k.srcIndex k.dstNode k.dstIndex)
          ++ (selectedNodes c).map (fun n => Command.removeNode n.nodeId)) := by
  constructor <;> intro h <;> simp [keyPressEvent, h]

/-- Witness for C5: a canvas with one editing node issues nothing; a canvas
with two selected nodes and one selected connection issues the disconnect
first, then the two removes. -/
theorem c5_delete_gesture_witness :
    keyPressEvent ⟨[⟨1, true, true, true⟩], []⟩ CanvasKey.backspace = [] ∧
    keyPressEvent ⟨[⟨1, true, true, false⟩, ⟨2, true, true, false⟩],
        [⟨7, true, true, 1, 0, 2, 0⟩]⟩ CanvasKey.backspace =
      [Command.disconnect 1 0 2 0, Command.removeNode 1, Command.removeNode 2] := by
  have h1 := (c5_delete_gesture ⟨[⟨1, true, true, true⟩], []⟩).1 (by decide)
  have h2 := (c5_delete_gesture ⟨[⟨1, true, true, false⟩, ⟨2, true, true, false⟩],
    [⟨7, true, true, 1, 0, 2, 0⟩]⟩).2 (by decide)
  exact ⟨h1, h2.trans (by decide)⟩

/-- Claim C10: a double-click over empty canvas issues exactly one create
command at the clicked scene position with empty text and zero ports and
accepts the event; a double-click over any item issues nothing. -/
theorem c10_double_click (x y : Int) :
    mouseDoubleClickEvent none x y = ([Command.createNode x y "" 0 0], true) ∧
    ∀ it : SceneItem, mouseDoubleClickEvent (some it) x y = ([], false) :=
  ⟨rfl, fun _ => rfl⟩

/-- Claim C9 counterexample: enabling hover feedback on objects and then on
connections leaves both enabled, so the three toggles are not mutually
exclusive and more than one can be enabled after a sequence of setter
calls. -/
theorem c9_counterexample :
    (applyToggleCalls initToggles
        [ToggleCall.objectHover true, ToggleCall.connectionHover true]).showObjectHoverFeedback_
      = true ∧
    (applyToggleCalls initToggles
        [ToggleCall.objectHover true, ToggleCall.connectionHover true]).showConnectionHoverFeedback_
      = true := by
  decide

/-- Helper: one setter call keeps the tooltip flag exclusive of both hover
flags. -/
theorem applyToggleCall_exclusive (s : Toggles) (c : ToggleCall)
    (h : tooltipsExclusive s = true) :
    tooltipsExclusive (applyToggleCall s c) = true := by
  rcases s with ⟨a, o, k⟩
  rcases c with ⟨b⟩ | ⟨b⟩ | ⟨b⟩ <;> cases a <;> cases o <;> cases k <;> cases b <;>
    revert h <;> decide

/-- Helper: a sequence of setter calls keeps the tooltip flag exclusive. -/
theorem applyToggleCalls_exclusive (calls : List ToggleCall) (s : Toggles)
    (h : tooltipsExclusive s = true) :
    tooltipsExclusive (applyToggleCalls s calls) = true := by
  induction calls generalizing s with
  | nil => exact h
  | cons c rest ih => exact ih _ (applyToggleCall_exclusive s c h)

/-- Claim C9 (amended): the tooltip toggle is mutually exclusive with each of
the two hover-feedback toggles — after any sequence of setter calls from the
initial state, show-port-tooltips is never enabled together with either
hover-feedback flag — but the two hover-feedback toggles are not exclusive of
each other. -/
theorem c9_amended_exclusive (calls : List ToggleCall) :
    tooltipsExclusive (applyToggleCalls initToggles calls) = true :=
  applyToggleCalls_exclusive calls initToggles (by decide)

/-- Claim C2 (code bug): shrinking the inlet list from one inlet with an
attached ConnectionVisual down to zero removes the connection from the scene
and deletes the port visual, but the ConnectionVisual object survives (it is
never destroyed nor detached) and still references the deleted port 0. -/
theorem c2_dangling_reference :
    (setInletCount c2FailingNode 0).deletedPorts = [0] ∧
    (setInletCount c2FailingNode 0).sceneConns = [] ∧
    (setInletCount c2FailingNode 0).scenePorts = [] ∧
    (setInletCount c2FailingNode 0).connectionRefs = [(10, 5, 0)] ∧
    (10, 5, 0) ∈ (setInletCount c2FailingNode 0).connectionRefs ∧
    0 ∈ (setInletCount c2FailingNode 0).deletedPorts := by
  decide

/-- Claim C3 (code bug): on a fresh canvas the node lookup for an unknown
node fails (the source logs a warning and returns null), but onNodeRemoved,
onNodeValidChanged and onNodeTextChanged then dereference that null visual
instead of no-opping; only onNodePosChanged checks the pointer and no-ops. -/
theorem c3_unknown_identity_crash :
    QDataflowCanvas.node initCanvas 0 = none ∧
    step initCanvas (Event.nodeRemoved 0) = Outcome.nullDeref ∧
    step initCanvas (Event.nodeValidChanged 0 true) = Outcome.nullDeref ∧
    step initCanvas (Event.nodeTextChanged 0 "x") = Outcome.nullDeref ∧
    step initCanvas (Event.nodePosChanged 0 0 0) = Outcome.ok initCanvas := by
  decide

/-- Claim C1 counterexample: after processing nodeAdded(0) followed by
nodeRemoved(0), looking node 0 up still returns a visual — the handler does
not remove the entry from the model-to-visual index, so the lookup does not
report the removed node as unknown. -/
theorem c1_counterexample :
    lookupNodeAfter [Event.nodeAdded 0 "x", Event.nodeRemoved 0] 0 = some 0 ∧
    lookupNodeAfter [Event.nodeAdded 0 "x", Event.nodeRemoved 0] 0 ≠ none := by
  decide

/-- Helper: one well-formed model signal is handled without a null
dereference and preserves the synchronization invariant. -/
theorem step_preserves_syncInv (m : ModelState) (s : QDataflowCanvas) (e : Event)
    (hInv : SyncInv m s) (hok : okEvent m e = true) :
    ∃ s1, step s e = Outcome.ok s1 ∧ SyncInv (m.step e) s1 := by
  obtain ⟨ln, lc, lu, cu, sn, sl, sc, scl, inx, icx⟩ := hInv
  cases e with
  | nodeAdded n text =>
    have hn : n ∉ m.usedNodes := of_decide_eq_true hok
    have hn2 : n ∉ s.nodes_ := fun h => hn ((inx n).1 h)
    have hn3 : n ∉ m.liveNodes := fun h => hn (lu n h)
    have hn4 : n ∉ s.sceneNodes := fun h => hn3 ((sl n).1 h)
    refine ⟨onNodeAdded s n text, rfl, ?_⟩
    refine ⟨List.nodup_cons.mpr ⟨hn3, ln⟩, lc, ?_, cu, ?_, ?_, sc, scl, ?_, icx⟩
    · intro x hx
      rcases List.mem_cons.1 hx with h | h
      · exact h ▸ List.mem_cons_self _ _
      · exact List.mem_cons_of_mem _ (lu x h)
    · show (n :: s.sceneNodes).Nodup
      exact List.nodup_cons.mpr ⟨hn4, sn⟩
    · intro x
      show x ∈ n :: s.sceneNodes ↔ x ∈ n :: m.liveNodes
      simp [List.mem_cons, sl x]
    · intro x
      show x ∈ (if n ∈ s.nodes_ then s.nodes_ else n :: s.nodes_) ↔ x ∈ n :: m.usedNodes
      rw [if_neg hn2]
      simp [List.mem_cons, inx x]
  | nodeRemoved n =>
    have hn : n ∈ m.liveNodes := of_decide_eq_true hok
    have hn2 : n ∈ s.nodes_ := (inx n).2 (lu n hn)
    have hstep : step s (Event.nodeRemoved n) =
        Outcome.ok { s with
          editNodes := if n ∈ s.editNodes then s.editNodes.filter (fun x => x != n)
                       else s.editNodes,
          sceneNodes := s.sceneNodes.erase n } := by
      simp [step, onNodeRemoved, QDataflowCanvas.node, hn2]
    refine ⟨_, hstep, ?_⟩
    refine ⟨ln.erase n, lc, ?_, cu, sn.erase n, ?_, sc, scl, inx, icx⟩
    · intro x hx
      exact lu x (List.mem_of_mem_erase hx)
    · intro x
      show x ∈ s.sceneNodes.erase n ↔ x ∈ m.liveNodes.erase n
      rw [sn.mem_erase_iff, ln.mem_erase_iff, sl x]
  | nodeValidChanged n valid =>
    have hn : n ∈ m.liveNodes := of_decide_eq_true hok
    have hn2 : n ∈ s.nodes_ := (inx n).2 (lu n hn)
    refine ⟨s, ?_, ⟨ln, lc, lu, cu, sn, sl, sc, scl, inx, icx⟩⟩
    simp [step, onNodeValidChanged, QDataflowCanvas.node, hn2]
  | nodePosChanged n x y =>
    refine ⟨s, ?_, ⟨ln, lc, lu, cu, sn, sl, sc, scl, inx, icx⟩⟩
    cases h : s.node n <;> simp [step, onNodePosChanged, h]
  | nodeTextChanged n text =>
    have hn : n ∈ m.liveNodes := of_decide_eq_true hok
    have hn2 : n ∈ s.nodes_ := (inx n).2 (lu n hn)
    refine ⟨s, ?_, ⟨ln, lc, lu, cu, sn, sl, sc, scl, inx, icx⟩⟩
    simp [step, onNodeTextChanged, QDataflowCanvas.node, hn2]
  | connectionAdded c srcNode dstNode =>
    have hok3 := hok
    simp only [okEvent, Bool.and_eq_true, decide_eq_true_eq] at hok3
    obtain ⟨⟨hc, hsn⟩, hdn⟩ := hok3
    have hc2 : c ∉ s.connections_ := fun h => hc ((icx c).1 h)
    have hc3 : c ∉ m.liveConns := fun h => hc (cu c h)
    have hc4 : c ∉ s.sceneConns := fun h => hc3 ((scl c).1 h)
    have hsrc : srcNode ∈ s.nodes_ := (inx srcNode).2 (lu srcNode hsn)
    have hdst : dstNode ∈ s.nodes_ := (inx dstNode).2 (lu dstNode hdn)
    have hstep : step s (Event.connectionAdded c srcNode dstNode) =
        Outcome.ok { s with
          connections_ := if c ∈ s.connections_ then s.connections_
                          else c :: s.connections_,
          sceneConns := c :: s.sceneConns } := by
      simp [step, onConnectionAdded, QDataflowCanvas.node, hsrc, hdst]
    refine ⟨_, hstep, ?_⟩
    refine ⟨ln, List.nodup_cons.mpr ⟨hc3, lc⟩, lu, ?_, sn, sl, ?_, ?_, inx, ?_⟩
    · intro x hx
      rcases List.mem_cons.1 hx with h | h
      · exact h ▸ List.mem_cons_self _ _
      · exact List.mem_cons_of_mem _ (cu x h)
    · show (c :: s.sceneConns).Nodup
      exact List.nodup_cons.mpr ⟨hc4, sc⟩
    · intro x
      show x ∈ c :: s.sceneConns ↔ x ∈ c :: m.liveConns
      simp [List.mem_cons, scl x]
    · intro x
      show x ∈ (if c ∈ s.connections_ then s.connections_ else c :: s.connections_) ↔
        x ∈ c :: m.usedConns
      rw [if_neg hc2]
      simp [List.mem_cons, icx x]
  | connectionRemoved c =>
    have hc : c ∈ m.liveConns := of_decide_eq_true hok
    have hc2 : c ∈ s.connections_ := (icx c).2 (cu c hc)
    have hstep : step s (Event.connectionRemoved c) =
        Outcome.ok { s with sceneConns := s.sceneConns.erase c } := by
      simp [step, onConnectionRemoved, QDataflowCanvas.connection, hc2]
    refine ⟨_, hstep, ?_⟩
    refine ⟨ln, lc.erase c, lu, ?_, sn, sl, sc.erase c, ?_, inx, icx⟩
    · intro x hx
      exact cu x (List.mem_of_mem_erase hx)
    · intro x
      show x ∈ s.sceneConns.erase c ↔ x ∈ m.liveConns.erase c
      rw [sc.mem_erase_iff, lc.mem_erase_iff, scl x]

/-- Helper: the invariant holds for the freshly constructed canvas and the
empty model. -/
theorem syncInv_init : SyncInv initModel initCanvas := by
  constructor <;> simp [initModel, initCanvas]

/-- Helper: a well-formed signal sequence is processed without a null
dereference and re-establishes the synchronization invariant. -/
theorem processEvents_syncInv (evts : List Event) (m : ModelState)
    (s : QDataflowCanvas) (hInv : SyncInv m s) (hwf : wf m evts = true) :
    ∃ s1, processEvents s evts = Outcome.ok s1 ∧ SyncInv (applyModel m evts) s1 := by
  induction evts generalizing m s with
  | nil => exact ⟨s, rfl, hInv⟩
  | cons e rest ih =>
    have hwf2 : okEvent m e = true ∧ wf (m.step e) rest = true := by
      simpa [wf, Bool.and_eq_true] using hwf
    obtain ⟨s1, hstep, hInv1⟩ := step_preserves_syncInv m s e hInv hwf2.1
    obtain ⟨s2, hrun, hInv2⟩ := ih (m.step e) s1 hInv1 hwf2.2
    refine ⟨s2, ?_, hInv2⟩
    simp [processEvents, hstep, hrun]

/-- Claim C1 (amended): after processing any well-formed finite sequence of
model signals, the scene holds exactly one NodeVisual per live model node and
exactly one ConnectionVisual per live model connection; the model-to-visual
index, however, retains an entry for every entity ever added, so looking up a
removed node or connection still returns its (off-scene) visual rather than
reporting it unknown. -/
theorem c1_amended_sync (evts : List Event) (hwf : wf initModel evts = true) :
    ∃ s1, processEvents initCanvas evts = Outcome.ok s1 ∧
      s1.sceneNodes.Nodup ∧
      (∀ n, n ∈ s1.sceneNodes ↔ n ∈ (applyModel initModel evts).liveNodes) ∧
      s1.sceneConns.Nodup ∧
      (∀ c, c ∈ s1.sceneConns ↔ c ∈ (applyModel initModel evts).liveConns) ∧
      (∀ n, n ∈ (applyModel initModel evts).usedNodes → s1.node n = some n) ∧
      (∀ c, c ∈ (applyModel initModel evts).usedConns → s1.connection c = some c) := by
  obtain ⟨s1, hrun, hInv⟩ := processEvents_syncInv evts initModel initCanvas syncInv_init hwf
  refine ⟨s1, hrun, hInv.sceneNodesNodup, hInv.sceneNodesLive, hInv.sceneConnsNodup,
    hInv.sceneConnsLive, ?_, ?_⟩
  · intro n hn
    simp [QDataflowCanvas.node, (hInv.indexNodesUsed n).2 hn]
  · intro c hc
    simp [QDataflowCanvas.connection, (hInv.indexConnsUsed c).2 hc]

/-- Witness for the amended C1 on the concrete sequence nodeAdded(0),
nodeRemoved(0). -/
theorem c1_amended_sync_witness :
    ∃ s1, processEvents initCanvas [Event.nodeAdded 0 "x", Event.nodeRemoved 0] =
        Outcome.ok s1 ∧
      s1.sceneNodes.Nodup ∧
      (∀ n, n ∈ s1.sceneNodes ↔
        n ∈ (applyModel initModel [Event.nodeAdded 0 "x", Event.nodeRemoved 0]).liveNodes) ∧
      s1.sceneConns.Nodup ∧
      (∀ c, c ∈ s1.sceneConns ↔
        c ∈ (applyModel initModel [Event.nodeAdded 0 "x", Event.nodeRemoved 0]).liveConns) ∧
      (∀ n, n ∈ (applyModel initModel [Event.nodeAdded 0 "x", Event.nodeRemoved 0]).usedNodes →
        s1.node n = some n) ∧
      (∀ c, c ∈ (applyModel initModel [Event.nodeAdded 0 "x", Event.nodeRemoved 0]).usedConns →
        s1.connection c = some c) :=
  c1_amended_sync [Event.nodeAdded 0 "x", Event.nodeRemoved 0] (by decide)

/-- Helper: the first normalization loop exits immediately on a non-negative
index. -/
theorem whileNeg_of_nonneg (n : Int) (fuel : Nat) (idx : Int) (h : 0 ≤ idx) :
    whileNeg n fuel idx = some idx := by
  cases fuel <;> simp [whileNeg, not_lt.mpr h]

/-- Helper: the second normalization loop exits immediately below n. -/
theorem whileGe_of_lt (n : Int) (fuel : Nat) (idx : Int) (h : idx < n) :
    whileGe n fuel idx = some idx := by
  cases fuel <;> simp [whileGe, not_le.mpr h]

/-- Helper: with n = 0 the first loop adds zero forever on a negative index,
exhausting any fuel. -/
theorem whileNeg_zero_of_neg (fuel : Nat) (idx : Int) (h : idx < 0) :
    whileNeg 0 fuel idx = none := by
  induction fuel with
  | zero => simp [whileNeg, h]
  | succ f ih =>
    simp only [whileNeg, if_pos h, add_zero]
    exact ih

/-- Helper: with n = 0 the second loop subtracts zero forever on a
non-negative index, exhausting any fuel. -/
theorem whileGe_zero_of_nonneg (fuel : Nat) (idx : Int) (h : 0 ≤ idx) :
    whileGe 0 fuel idx = none := by
  induction fuel with
  | zero => simp [whileGe, h]
  | succ f ih =>
    simp only [whileGe, if_pos h, sub_zero]
    exact ih

/-- Claim C7 (code bug): cycleCompletion invoked with an empty candidate list
does not terminate — whatever fuel bound is given to the two normalization
loops runs out, for every direction d. -/
theorem c7_cycle_diverges (fuel : Nat) (d : Int) :
    cycleCompletion fuel emptyCompletionLabel d = none := by
  by_cases hd : d = -1
  · subst hd
    have h1 : whileNeg 0 fuel (-1) = none := whileNeg_zero_of_neg fuel (-1) (by norm_num)
    simp [cycleCompletion, emptyCompletionLabel, h1]
  · by_cases h0 : (-1 : Int) + d < 0
    · have h1 : whileNeg 0 fuel (-1 + d) = none := whileNeg_zero_of_neg fuel _ h0
      simp [cycleCompletion, emptyCompletionLabel, hd, h1]
    · have h1 : whileNeg 0 fuel (-1 + d) = some (-1 + d) :=
        whileNeg_of_nonneg 0 fuel _ (by omega)
      have h2 : whileGe 0 fuel (-1 + d) = none :=
        whileGe_zero_of_nonneg fuel _ (by omega)
      simp [cycleCompletion, emptyCompletionLabel, hd, h1, h2]

/-- Helper: minus one is congruent to n - 1 modulo n. -/
theorem neg_one_emod (n : Int) (h : 1 ≤ n) : (-1 : Int) % n = n - 1 := by
  have h1 : (-1 : Int) % n = (-1 + n * 1) % n := (Int.add_mul_emod_self_left (-1) n 1).symm
  rw [h1]
  have h2 : (-1 : Int) + n * 1 = n - 1 := by ring
  rw [h2]
  exact Int.emod_eq_of_lt (by omega) (by omega)

/-- Claim C8: with a non-empty candidate list of length n and a highlight
state that is either none (-1) or a valid index, a Down press moves the
highlight from none to 0 and from i to (i + 1) mod n, and an Up press moves
it from none to n - 1 and from i to (i - 1) mod n; nothing else changes. -/
theorem c8_cycle_wraps (s : LabelState) (fuel : Nat)
    (hne : s.completionItems ≠ [])
    (hrange : s.completionIndex = -1 ∨
      (0 ≤ s.completionIndex ∧
        s.completionIndex < (s.completionItems.length : Int))) :
    cycleCompletion (fuel + 1) s 1 =
      some { s with completionIndex :=
        if s.completionIndex = -1 then 0
        else (s.completionIndex + 1) % (s.completionItems.length : Int) } ∧
    cycleCompletion (fuel + 1) s (-1) =
      some { s with completionIndex :=
        if s.completionIndex = -1 then (s.completionItems.length : Int) - 1
        else (s.completionIndex - 1) % (s.completionItems.length : Int) } := by
  have hl : 0 < s.completionItems.length := List.length_pos.mpr hne
  have hn : (1 : Int) ≤ (s.completionItems.length : Int) := by exact_mod_cast hl
  constructor
  · rcases hrange with h1 | ⟨h2a, h2b⟩
    · have e0 : whileNeg (s.completionItems.length : Int) (fuel + 1) 0 = some 0 :=
        whileNeg_of_nonneg _ _ _ le_rfl
      have e1 : whileGe (s.completionItems.length : Int) (fuel + 1) 0 = some 0 :=
        whileGe_of_lt _ _ _ (by omega)
      simp [cycleCompletion, h1, e0, e1]
    · have hne2 : ¬ s.completionIndex = -1 := by omega
      have e0 : whileNeg (s.completionItems.length : Int) (fuel + 1)
          (s.completionIndex + 1) = some (s.completionIndex + 1) :=
        whileNeg_of_nonneg _ _ _ (by omega)
      by_cases hlt : s.completionIndex + 1 < (s.completionItems.length : Int)
      · have e1 : whileGe (s.completionItems.length : Int) (fuel + 1)
            (s.completionIndex + 1) = some (s.completionIndex + 1) :=
          whileGe_of_lt _ _ _ hlt
        have hm : (s.completionIndex + 1) % (s.completionItems.length : Int) =
            s.completionIndex + 1 :=
          Int.emod_eq_of_lt (by omega) hlt
        simp [cycleCompletion, hne2, e0, e1, hm]
      · have heq : s.completionIndex + 1 = (s.completionItems.length : Int) := by omega
        have e1 : whileGe (s.completionItems.length : Int) (fuel + 1)
            (s.completionIndex + 1) = some 0 := by
          have hcond : (s.completionItems.length : Int) ≤ s.completionIndex + 1 := by omega
          have h0 : s.completionIndex + 1 - (s.completionItems.length : Int) = 0 := by
            omega
          simp only [whileGe, if_pos hcond, h0]
          exact whileGe_of_lt _ _ _ (by omega)
        have hm : (s.completionIndex + 1) % (s.completionItems.length : Int) = 0 := by
          rw [heq]
          exact Int.emod_self
        simp [cycleCompletion, hne2, e0, e1, hm]
  · rcases hrange with h1 | ⟨h2a, h2b⟩
    · have e0 : whileNeg (s.completionItems.length : Int) (fuel + 1)
          ((s.completionItems.length : Int) - 1) =
          some ((s.completionItems.length : Int) - 1) :=
        whileNeg_of_nonneg _ _ _ (by omega)
      have e1 : whileGe (s.completionItems.length : Int) (fuel + 1)
          ((s.completionItems.length : Int) - 1) =
          some ((s.completionItems.length : Int) - 1) :=
        whileGe_of_lt _ _ _ (by omega)
      simp [cycleCompletion, h1, e0, e1]
    · have hne2 : ¬ s.completionIndex = -1 := by omega
      have hsub : s.completionIndex + -1 = s.completionIndex - 1 := by ring
      by_cases hpos : 0 ≤ s.completionIndex - 1
      · have e0 : whileNeg (s.completionItems.length : Int) (fuel + 1)
            (s.completionIndex - 1) = some (s.completionIndex - 1) :=
          whileNeg_of_nonneg _ _ _ hpos
        have e1 : whileGe (s.completionItems.length : Int) (fuel + 1)
            (s.completionIndex - 1) = some (s.completionIndex - 1) :=
          whileGe_of_lt _ _ _ (by omega)
        have hm : (s.completionIndex - 1) % (s.completionItems.length : Int) =
            s.completionIndex - 1 :=
          Int.emod_eq_of_lt hpos (by omega)
        simp [cycleCompletion, hne2, hsub, e0, e1, hm]
      · have hz : s.completionIndex = 0 := by omega
        have e0 : whileNeg (s.completionItems.length : Int) (fuel + 1)
            (s.completionIndex - 1) =
            some ((s.completionItems.length : Int) - 1) := by
          have hcond : s.completionIndex - 1 < 0 := by omega
          have h0 : s.completionIndex - 1 + (s.completionItems.length : Int) =
              (s.completionItems.length : Int) - 1 := by omega
          simp only [whileNeg, if_pos hcond, h0]
          exact whileNeg_of_nonneg _ _ _ (by omega)
        have e1 : whileGe (s.completionItems.length : Int) (fuel + 1)
            ((s.completionItems.length : Int) - 1) =
            some ((s.completionItems.length : Int) - 1) :=
          whileGe_of_lt _ _ _ (by omega)
        have hm : (s.completionIndex - 1) % (s.completionItems.length : Int) =
            (s.completionItems.length : Int) - 1 := by
          rw [hz]
          have : (0 : Int) - 1 = -1 := by ring
          rw [this]
          exact neg_one_emod _ hn
        simp [cycleCompletion, hne2, hsub, e0, e1, hm]

/-- Witness for C8 on the two-candidate list with index 0: Down wraps to 1
and Up wraps to 1. -/
theorem c8_cycle_wraps_witness :
    cycleCompletion 1 { text := "x", oldText := "x", completionItems := ["a", "b"],
                        completionIndex := 0, completionActive := true, editing := true } 1 =
      some { text := "x", oldText := "x", completionItems := ["a", "b"],
             completionIndex := 1, completionActive := true, editing := true } ∧
    cycleCompletion 1 { text := "x", oldText := "x", completionItems := ["a", "b"],
                        completionIndex := 0, completionActive := true, editing := true } (-1) =
      some { text := "x", oldText := "x", completionItems := ["a", "b"],
             completionIndex := 1, completionActive := true, editing := true } := by
  have h := c8_cycle_wraps { text := "x", oldText := "x", completionItems := ["a", "b"],
                             completionIndex := 0, completionActive := true, editing := true }
    0 (by decide) (Or.inr ⟨by decide, by decide⟩)
  exact ⟨h.1.trans (by decide), h.2.trans (by decide)⟩

/-- Claim C6: entering edit mode over text t0, replacing the text by t, and
pressing Escape while not completing restores the text to exactly t0 and
issues no command; the same sequence ended with Return issues exactly one
setText command carrying t, and no command at all when t equals t0. -/
theorem c6_edit_round_trip (provider : String → List String) (nodeId fuel : Nat)
    (t0 t : String) (hnc : provider t = []) :
    Option.map (fun r => (r.1.text, r.2))
        (keyPress provider nodeId fuel
          (docSetPlainText provider (enterEditMode provider (initLabel t0)) t)
          Key.escape)
      = some (t0, []) ∧
    Option.map (fun r => r.2)
        (keyPress provider nodeId fuel
          (docSetPlainText provider (enterEditMode provider (initLabel t0)) t)
          Key.enter)
      = some (if t0 = t then [] else [Command.setNodeText nodeId t]) := by
  have hs2 : docSetPlainText provider (enterEditMode provider (initLabel t0)) t
      = { text := t, oldText := t0, completionItems := [], completionIndex := -1,
          completionActive := false, editing := true } := by
    cases hpt0 : provider t0 with
    | nil => simp [docSetPlainText, enterEditMode, complete, setCompletion,
        clearCompletion, initLabel, hpt0, hnc]
    | cons a l => simp [docSetPlainText, enterEditMode, complete, setCompletion,
        clearCompletion, initLabel, hpt0, hnc]
  rw [hs2]
  constructor
  · cases hpt0 : provider t0 with
    | nil => simp [keyPress, exitEditMode, clearCompletion, docSetPlainText,
        complete, setCompletion, hpt0]
    | cons a l => simp [keyPress, exitEditMode, clearCompletion, docSetPlainText,
        complete, setCompletion, hpt0]
  · by_cases ht : t0 = t
    · simp [keyPress, exitEditMode, clearCompletion, ht]
    · simp [keyPress, exitEditMode, clearCompletion, ht]

/-- Witness for C6: completion provider with no candidates, entry text a,
typed text foo; Escape restores a with no command, Return issues one setText
command carrying foo. -/
theorem c6_edit_round_trip_witness :
    Option.map (fun r => (r.1.text, r.2))
        (keyPress (fun _ => []) 5 0
          (docSetPlainText (fun _ => []) (enterEditMode (fun _ => []) (initLabel "a")) "foo")
          Key.escape)
      = some ("a", []) ∧
    Option.map (fun r => r.2)
        (keyPress (fun _ => []) 5 0
          (docSetPlainText (fun _ => []) (enterEditMode (fun _ => []) (initLabel "a")) "foo")
          Key.enter)
      = some [Command.setNodeText 5 "foo"] := by
  have h := c6_edit_round_trip (fun _ => []) 5 0 "a" "foo" rfl
  exact ⟨h.1, h.2.trans (by decide)⟩

end QDataflow
